import Mathlib

/-!
Verification of the round-up pipeline: the transaction-chain data model, the
queue consumer, the producer, the scheduler's dispatch logic, and the
JSON-serialization layer used for hashing, embedded from the repository's
source, together with proofs of the specified invariants.
-/

namespace Roundup

/-- The `hash` sub-object of a chain entry or envelope: `{type, value}`. -/
structure JHash where
  type : String
  value : String
deriving DecidableEq, Repr

/-- A signature header `{alg, kid}`. -/
structure SigHeader where
  alg : String
  kid : String
deriving DecidableEq, Repr

/-- One element of a `signatures` array: `{header, signature}`. -/
structure ChainSig where
  header : SigHeader
  signature : String
deriving DecidableEq, Repr

/-- The payload of one chain entry, with the fields the source stores:
`{count, address, amount, roundup, balance, currency, limit, previous,
timestamp, reference}`.  Monetary fields are exact rationals. -/
structure ChainPayload where
  count : Int
  address : String
  amount : ℚ
  roundup : ℚ
  balance : ℚ
  currency : String
  limit : ℚ
  previous : Option String
  timestamp : String
  reference : String
deriving DecidableEq, Repr

/-- A chain entry: `{hash, payload, signatures}`. -/
structure ChainEntry where
  hash : JHash
  payload : ChainPayload
  signatures : List ChainSig
deriving DecidableEq, Repr

/-- The payload of an envelope sent to or received from the signer queue:
`{address, previous, transactions}`. -/
structure EnvelopePayload where
  address : String
  previous : ChainEntry
  transactions : List ChainEntry
deriving DecidableEq, Repr

/-- A chain envelope: `{hash, payload, signatures}`. -/
structure Envelope where
  hash : JHash
  payload : EnvelopePayload
  signatures : List ChainSig
deriving DecidableEq, Repr

/-- A persisted `Address` document: `address`, the signer public key
`keys.public`, and the current tip `latestTransaction`. -/
structure AddressRecord where
  address : String
  publicKey : String
  latestTransaction : Option String
deriving DecidableEq, Repr

/-! ## The consumer (fromAws, src/unnamed/part_003 lines 164-422) -/

/-- The observable effects of the consumer processing one queue message:
whether `deleteMessage` was called on the receipt, the entries whose
signatures were written by `saveTransaction`, and the value written to
`Address.latestTransaction` (`none` means the tip was left unchanged). -/
structure ConsumerEffects where
  deletedReceipt : Bool
  savedSignatureEntries : List ChainEntry
  tipUpdate : Option String
deriving DecidableEq, Repr

/-- Embeds the `forEach` loop of `checkTransactionPayload` (part_003 lines
359-366): every entry whose `payload.count` equals `comparison` overwrites
the `latestTransaction` local, so the last such entry is kept. -/
def findLatest (comparison : Int) (txs : List ChainEntry) : Option ChainEntry :=
  txs.foldl (fun acc t => if t.payload.count = comparison then some t else acc) none

/-- Result of `checkTransactionPayload`: whether the promise resolved, and
the tip value written by `updateAddressLatestTransaction` if any. -/
structure CheckResult where
  ok : Bool
  tip : Option String
deriving DecidableEq, Repr

/-- The `comparison` count computed by `checkTransactionPayload` (part_003
line 356): `previous.payload.count + transactions.length`. -/
def comparisonCount (env : Envelope) : Int :=
  env.payload.previous.payload.count + (env.payload.transactions.length : Int)

/-- Embeds `checkTransactionPayload` (part_003 lines 353-386): every entry's
signatures are saved first; then, if an entry with the comparison count
exists, its signature is verified against `address.keys.public` and on
success the tip is advanced to its `hash.value`; verification failure
rejects.  When no entry has the comparison count the promise resolves
without touching the tip. -/
def checkTransactionPayload (verifyEntry : ChainEntry → String → Bool)
    (addr : AddressRecord) (env : Envelope) : CheckResult :=
  match findLatest (comparisonCount env) env.payload.transactions with
  | none => ⟨true, none⟩
  | some latest =>
    if verifyEntry latest addr.publicKey then ⟨true, some latest.hash.value⟩
    else ⟨false, none⟩

/-- Embeds `extractTransactionChainFromMessage` together with `verifySign`
(part_003 lines 257-341): parse the body (a `none` body models a missing
`Body` or a `JSON.parse` failure, both of which reject without deleting),
look up the address, verify the envelope signature against
`SIGNER_PUBLIC_KEY`, run `checkTransactionPayload`, and only when that
whole pipeline resolves call `deleteMessage` on the receipt. -/
def processMessage (verifyEnvelope : Envelope → String → Bool)
    (verifyEntry : ChainEntry → String → Bool) (signerPublicKey : String)
    (lookupAddress : String → Option AddressRecord)
    (body : Option Envelope) : ConsumerEffects :=
  match body with
  | none => ⟨false, [], none⟩
  | some env =>
    match lookupAddress env.payload.address with
    | none => ⟨false, [], none⟩
    | some addr =>
      if verifyEnvelope env signerPublicKey then
        let chk := checkTransactionPayload verifyEntry addr env
        if chk.ok then ⟨true, env.payload.transactions, chk.tip⟩
        else ⟨false, env.payload.transactions, none⟩
      else ⟨false, [], none⟩

/-! ### Concrete inputs used to witness the consumer theorems -/

/-- A concrete chain payload used in witnesses. -/
def payloadW0 : ChainPayload :=
  ⟨0, "addrW", 0, 0, 0, "USD", -10, none, "2016-04-15", "ref0"⟩

/-- A concrete previous chain tip used in witnesses. -/
def entryW0 : ChainEntry := ⟨⟨"sha256", "0"⟩, payloadW0, []⟩

/-- A concrete chain entry with count 1. -/
def entryW1 : ChainEntry :=
  ⟨⟨"sha256", "1"⟩,
   ⟨1, "addrW", 2, 1, -1, "USD", -10, some "0", "2016-04-16", "ref1"⟩, []⟩

/-- A concrete envelope holding `entryW1` on top of `entryW0`. -/
def envelopeW : Envelope :=
  ⟨⟨"sha256", "hEnv"⟩, ⟨"addrW", entryW0, [entryW1]⟩, []⟩

/-- A concrete address record for `addrW`. -/
def addressW : AddressRecord := ⟨"addrW", "pubW", some "0"⟩

/-! ## The chain builder (helpers/transactionChain) -/

/-- A plaid transaction as handed to the chain builder (`roundUpAndSave`
output): `{transactionId, amount, roundup, date, name}`.  `amount` and
`roundup` are `Option` so that a missing or non-numeric field can be
modelled. -/
structure PlaidTx where
  transactionId : String
  amount : Option ℚ
  roundup : Option ℚ
  date : String
  name : String
deriving DecidableEq, Repr

/-- The entry the builder produces from one valid plaid transaction on top
of `prev`: count increments, balance decreases by the roundup, `previous`
points at `prev.hash.value`, currency and limit carry forward, and the
hash value is the hash function applied to the new payload. -/
def nextEntry (hashFn : ChainPayload → String) (prev : ChainEntry)
    (tx : PlaidTx) (a r : ℚ) : ChainEntry :=
  let payload : ChainPayload :=
    ⟨prev.payload.count + 1, prev.payload.address, a, r, prev.payload.balance - r,
     prev.payload.currency, prev.payload.limit, some prev.hash.value,
     tx.date, tx.transactionId⟩
  ⟨⟨prev.hash.type, hashFn payload⟩, payload, []⟩

/-- Modelled from the spec: `helpers/transactionChain.createTransaction` is
not under `src/` (only its unit test
`src/tests/unit/helpers/transactionChain.test.js` is); this follows spec
section 4.3 step 4 and the test's expectations.  A `none` input models a
non-object (`invalid-transaction-input`); a missing or non-positive amount
fails `invalid-transaction-amount`; a missing or negative roundup fails
`invalid-transaction-roundup`. -/
def createTransaction (hashFn : ChainPayload → String) (tx : Option PlaidTx)
    (prev : ChainEntry) : Except String ChainEntry :=
  match tx with
  | none => .error "invalid-transaction-input"
  | some t =>
    match t.amount with
    | none => .error "invalid-transaction-amount"
    | some a =>
      if a ≤ 0 then .error "invalid-transaction-amount"
      else
        match t.roundup with
        | none => .error "invalid-transaction-roundup"
        | some r =>
          if r < 0 then .error "invalid-transaction-roundup"
          else .ok (nextEntry hashFn prev t a r)

/-- Modelled from the spec: the builder's fold over the input batch (spec
section 4.3 step 4); each produced entry becomes the new `prev` for the
next iteration. -/
def buildEntries (hashFn : ChainPayload → String) (prev : ChainEntry) :
    List (Option PlaidTx) → Except String (List ChainEntry)
  | [] => .ok []
  | t :: ts =>
    match createTransaction hashFn t prev with
    | .error e => .error e
    | .ok entry =>
      match buildEntries hashFn entry ts with
      | .error e => .error e
      | .ok rest => .ok (entry :: rest)

/-- Modelled from the spec: `helpers/transactionChain.create` is not under
`src/` (only its unit test is); this follows spec section 4.3 steps 1-3:
validate the previous tip's address, recompute its hash, then fold the
batch.  The field-presence check on `previous.payload`
(`invalid-previous-transaction`) is subsumed by the typed payload; the
hash recomputation is parametrized by the same hash function used for new
entries. -/
def createChain (hashFn : ChainPayload → String) (address : String)
    (previous : ChainEntry) (txs : List (Option PlaidTx)) :
    Except String (List ChainEntry) :=
  if previous.payload.address ≠ address then .error "address-mismatch"
  else if hashFn previous.payload ≠ previous.hash.value then
    .error "previous-transaction-hash-mismatch"
  else buildEntries hashFn previous txs

/-- An eligible builder input: an object with a finite positive amount and
a finite non-negative roundup. -/
def validTx (t : Option PlaidTx) : Prop :=
  ∃ tx a r, t = some tx ∧ tx.amount = some a ∧ 0 < a ∧ tx.roundup = some r ∧ 0 ≤ r

/-- The linkage invariant of a built segment on top of `prev`: each entry
increments the count, points its `previous` at the prior hash, and
decreases the balance by its roundup. -/
def linked (prev : ChainEntry) : List ChainEntry → Prop
  | [] => True
  | e :: rest =>
      e.payload.count = prev.payload.count + 1 ∧
      e.payload.previous = some prev.hash.value ∧
      e.payload.balance = prev.payload.balance - e.payload.roundup ∧
      linked e rest

/-- A hash function used in witnesses: the decimal count of the payload. -/
def hashFnW (p : ChainPayload) : String := toString p.count

/-- A concrete eligible builder input. -/
def txWA : PlaidTx := ⟨"txA", some 1, some (1/2), "2016-04-16", "storeA"⟩

/-- A second concrete eligible builder input. -/
def txWB : PlaidTx := ⟨"txB", some 2, some (1/4), "2016-04-17", "storeB"⟩

/-! ## The consumer polling loop (part_003 lines 192-248) -/

/-- One `receiveMessage` outcome: an empty array, or a message batch whose
processing either commits or errors (both reset the empty counter). -/
inductive PollResult where
  | empty : PollResult
  | messages (processedOk : Bool) : PollResult
deriving DecidableEq, Repr

/-- The run-record query written on termination (`{process: "roundup"}`). -/
structure RunRecordWrite where
  processKey : String
deriving DecidableEq, Repr

/-- Outcome of driving the polling loop over a finite script of poll
results: either the run terminated (after consuming a number of polls,
writing a run record and issuing an operator notification), or the script
was exhausted with the loop still polling at some counter value. -/
inductive ConsumerOutcome where
  | terminated (pollsConsumed : Nat) (record : RunRecordWrite) (notified : Bool) : ConsumerOutcome
  | pollingExhausted (counter : Nat) : ConsumerOutcome
deriving DecidableEq, Repr

/-- Embeds `get` and `handleResponseFromAws` (part_003 lines 192-248),
driven by a finite script of poll results.  `counter` is the value of the
module-level `emptyMessages` at the moment a `receiveMessage` resolves:
`get({firstRun: true})` sets it to 0 before the first receive, every later
`get()` increments it before its receive, and message processing resets it
to 0 (in both the success and the error path) before the follow-up `get()`
increments it to 1.  After an empty receive the run terminates exactly
when the counter exceeds 2, writing the run record for process `roundup`
and notifying the operator. -/
def consumerLoop (counter : Nat) : List PollResult → ConsumerOutcome
  | [] => .pollingExhausted counter
  | .empty :: rest =>
    if counter > 2 then .terminated 1 ⟨"roundup"⟩ true
    else
      match consumerLoop (counter + 1) rest with
      | .terminated n r nf => .terminated (n + 1) r nf
      | .pollingExhausted c => .pollingExhausted c
  | .messages _ :: rest =>
    match consumerLoop 1 rest with
    | .terminated n r nf => .terminated (n + 1) r nf
    | .pollingExhausted c => .pollingExhausted c

/-- A consumer run started with `get({firstRun: true})`. -/
def consumerRun (polls : List PollResult) : ConsumerOutcome :=
  consumerLoop 0 polls

/-! ## JSON serialization and the producer's hash input (C3) -/

/-- A JSON value; object fields keep their insertion order, as JavaScript
objects do. -/
inductive Json where
  | null : Json
  | bool (b : Bool) : Json
  | num (n : Int) : Json
  | str (s : String) : Json
  | arr (elems : List Json) : Json
  | obj (fields : List (String × Json)) : Json

mutual

/-- `JSON.stringify` semantics: fields in insertion order, no whitespace.
String escaping is omitted; every string serialized here is escape-free. -/
def renderJs : Json → String
  | .null => "null"
  | .bool true => "true"
  | .bool false => "false"
  | .num n => toString n
  | .str s => "\"" ++ s ++ "\""
  | .arr xs => "[" ++ renderJsList xs ++ "]"
  | .obj fs => "\x7b" ++ renderJsFields fs ++ "\x7d"

/-- Comma-joined rendering of array elements. -/
def renderJsList : List Json → String
  | [] => ""
  | [x] => renderJs x
  | x :: y :: rest => renderJs x ++ "," ++ renderJsList (y :: rest)

/-- Comma-joined rendering of object fields. -/
def renderJsFields : List (String × Json) → String
  | [] => ""
  | [(k, v)] => "\"" ++ k ++ "\":" ++ renderJs v
  | (k, v) :: f :: rest =>
    "\"" ++ k ++ "\":" ++ renderJs v ++ "," ++ renderJsFields (f :: rest)

end

/-- Insert a field into a key-sorted field list. -/
def insertField (p : String × Json) :
    List (String × Json) → List (String × Json)
  | [] => [p]
  | q :: qs => if p.1 < q.1 then p :: q :: qs else q :: insertField p qs

/-- Insertion sort of object fields by key (lexicographic). -/
def insertionSortFields : List (String × Json) → List (String × Json)
  | [] => []
  | p :: ps => insertField p (insertionSortFields ps)

mutual

/-- Recursively sort every object's fields by key. -/
def sortJson : Json → Json
  | .null => .null
  | .bool b => .bool b
  | .num n => .num n
  | .str s => .str s
  | .arr xs => .arr (sortJsonList xs)
  | .obj fs => .obj (insertionSortFields (sortJsonFields fs))

/-- `sortJson` mapped over array elements. -/
def sortJsonList : List Json → List Json
  | [] => []
  | x :: xs => sortJson x :: sortJsonList xs

/-- `sortJson` mapped over field values. -/
def sortJsonFields : List (String × Json) → List (String × Json)
  | [] => []
  | (k, v) :: fs => (k, sortJson v) :: sortJsonFields fs

end

/-- Canonical JSON as the spec defines it (section 6): object keys sorted
lexicographically at every level, no extraneous whitespace, arrays in
input order. -/
def canonicalJson (j : Json) : String := renderJs (sortJson j)

/-- The serialization computed by `json-stable-stringify`: keys sorted at
every level, no whitespace. -/
def stableStringify (j : Json) : String := renderJs (sortJson j)

/-- Embeds the envelope payload object built by `sign` (part_003 lines
701-715 and 975-989): fields in the insertion order `address`, `previous`
(itself `hash`, `payload`, `signatures`), `transactions`. -/
def envelopePayloadJson (address : String) (prevHash prevPayload prevSigs : Json)
    (txs : List Json) : Json :=
  .obj [("address", .str address),
        ("previous", .obj [("hash", prevHash), ("payload", prevPayload),
                           ("signatures", prevSigs)]),
        ("transactions", .arr txs)]

/-- Embeds the string hashed by the producer variant at part_003 lines
716-718: sha256 is applied to `stringify(payload)` with
`json-stable-stringify`. -/
def signHashInputStable (payload : Json) : String := stableStringify payload

/-- Embeds the string hashed by the producer variant at part_003 lines
989-992: sha256 is applied to `JSON.stringify(payload)`, which keeps
object fields in insertion order. -/
def signHashInputPlain (payload : Json) : String := renderJs payload

/-- The chain-entry payload in the builder's insertion order (the order
the unit test constructs and the spec's data model lists): `count` first,
then `address`, and so on. -/
def entryPayloadJsonW : Json :=
  .obj [("count", .num 1), ("address", .str "addrW"), ("amount", .num 2),
        ("roundup", .num 1), ("balance", .num (-1)), ("currency", .str "USD"),
        ("limit", .num (-10)), ("previous", .str "0"),
        ("timestamp", .str "2016-04-16"), ("reference", .str "txA")]

/-- The same chain-entry payload with keys sorted. -/
def entryPayloadSortedJsonW : Json :=
  .obj [("address", .str "addrW"), ("amount", .num 2), ("balance", .num (-1)),
        ("count", .num 1), ("currency", .str "USD"), ("limit", .num (-10)),
        ("previous", .str "0"), ("reference", .str "txA"),
        ("roundup", .num 1), ("timestamp", .str "2016-04-16")]

/-- The previous tip's payload in insertion order. -/
def prevPayloadJsonW : Json :=
  .obj [("count", .num 0), ("address", .str "addrW"), ("amount", .num 0),
        ("roundup", .num 0), ("balance", .num 0), ("currency", .str "USD"),
        ("limit", .num (-10)), ("previous", .null),
        ("timestamp", .str "2016-04-15"), ("reference", .str "ref0")]

/-- The previous tip's payload with keys sorted. -/
def prevPayloadSortedJsonW : Json :=
  .obj [("address", .str "addrW"), ("amount", .num 0), ("balance", .num 0),
        ("count", .num 0), ("currency", .str "USD"), ("limit", .num (-10)),
        ("previous", .null), ("reference", .str "ref0"),
        ("roundup", .num 0), ("timestamp", .str "2016-04-15")]

/-- A full chain entry (hash, payload, signatures) in insertion order. -/
def entryJsonW : Json :=
  .obj [("hash", .obj [("type", .str "sha256"), ("value", .str "1")]),
        ("payload", entryPayloadJsonW), ("signatures", .arr [])]

/-- A concrete envelope payload as `sign` builds it. -/
def envPayloadJsonW : Json :=
  envelopePayloadJson "addrW"
    (.obj [("type", .str "sha256"), ("value", .str "0")])
    prevPayloadJsonW (.arr []) [entryJsonW]

/-- `envPayloadJsonW` with every object's keys sorted. -/
def envPayloadSortedJsonW : Json :=
  .obj [("address", .str "addrW"),
        ("previous", .obj [("hash", .obj [("type", .str "sha256"), ("value", .str "0")]),
                           ("payload", prevPayloadSortedJsonW),
                           ("signatures", .arr [])]),
        ("transactions", .arr [
          .obj [("hash", .obj [("type", .str "sha256"), ("value", .str "1")]),
                ("payload", entryPayloadSortedJsonW), ("signatures", .arr [])]])]

/-! ## The intake worker (processData, part_003 lines 531-563) -/

/-- A raw transaction as delivered by the aggregator:
`{_id, amount, date, name, pending}`. -/
structure RawPlaidTx where
  id : String
  amount : ℚ
  date : String
  name : String
  pending : Bool
deriving DecidableEq, Repr

/-- A well-formed `YYYY-MM-DD` date string: four digits, dash, a month in
01-12, dash, a day in 01-31. -/
def validDateString (s : String) : Bool :=
  match s.toList with
  | [y1, y2, y3, y4, c1, m1, m2, c2, d1, d2] =>
    y1.isDigit && y2.isDigit && y3.isDigit && y4.isDigit &&
    (c1 == '-') && (c2 == '-') &&
    m1.isDigit && m2.isDigit && d1.isDigit && d2.isDigit &&
    (let m := (m1.toNat - 48) * 10 + (m2.toNat - 48)
     decide (1 ≤ m ∧ m ≤ 12)) &&
    (let d := (d1.toNat - 48) * 10 + (d2.toNat - 48)
     decide (1 ≤ d ∧ d ≤ 31))
  | _ => false

/-- Modelled from the spec: `helpers/plaidTransactionFilter` is not under
`src/`; spec section 4.2 keeps a raw transaction iff it is not pending,
its amount is positive, its date is a valid `YYYY-MM-DD`, and its id is
non-empty. -/
def transactionFilter (t : RawPlaidTx) : Bool :=
  !t.pending && decide ((0 : ℚ) < t.amount) && validDateString t.date && !(t.id == "")

/-- Modelled from the spec: `helpers/roundup` is not under `src/`; spec
section 4.1 returns the ceiling complement for a fractional positive
amount, 1 for a positive whole amount, and 0 for a non-positive amount. -/
def roundupAmount (a : ℚ) : ℚ :=
  if a ≤ 0 then 0 else if a.den = 1 then 1 else (⌈a⌉ : ℚ) - a

/-- Embeds `roundUpAndSave` (part_003 lines 570-593): the plaid
transaction handed to the chain builder, with its roundup computed from
the amount (the best-effort database write of the audit record does not
affect the data handed onward). -/
def roundUpAndSave (t : RawPlaidTx) : PlaidTx :=
  ⟨t.id, some t.amount, some (roundupAmount t.amount), t.date, t.name⟩

/-- What one worker run produces: whether `sendMessage` was called on the
to-signer queue, and how many chain entries the sent envelope carried. -/
structure WorkerOutcome where
  enqueued : Bool
  envelopeTransactionCount : Nat
deriving DecidableEq, Repr

/-- Embeds `processData` (part_003 lines 531-563): parse the aggregator
response, filter, round up and map; the resulting JavaScript array is
truthy even when it is empty, so the chain is built, signed and handed to
`sendToQueue` whenever parsing succeeded and the builder resolves.  A
`none` parse models a `JSON.parse` or assertion throw (promise rejected,
nothing enqueued); a builder error also rejects before `sendToQueue`. -/
def processData (hashFn : ChainPayload → String) (previous : ChainEntry)
    (address : String) (parsed : Option (List RawPlaidTx)) : Option WorkerOutcome :=
  match parsed with
  | none => none
  | some txs =>
    let plaidTxs := (txs.filter transactionFilter).map roundUpAndSave
    match createChain hashFn address previous (plaidTxs.map some) with
    | .error _ => none
    | .ok chain => some ⟨true, chain.length⟩

/-- A concrete pending raw transaction (rejected by the filter). -/
def txPendingW : RawPlaidTx := ⟨"txP", 3, "2026-09-03", "storeP", true⟩

/-! ## The scheduler (src/roundup/trigger.js) and the worker request -/

/-- Embeds the return value of `request` (part_003 lines 476-493 and
797-813): the function wires an https request through callbacks and its
body has no return statement, so a call to it evaluates to `undefined`
rather than a promise. -/
def requestReturnsPromise : Bool := false

/-- The per-user outcome of one scheduler dispatch: the user's
`latestRoundupDate` after the run, and whether the error path logged. -/
structure TriggerUserOutcome where
  latestRoundupDate : Option String
  errorLogged : Bool
deriving DecidableEq, Repr

/-- Embeds `processRoundups` (src/roundup/trigger.js lines 57-77): when
`setupDateOptions` signals already-run-today the user is skipped;
otherwise the code evaluates `requestAndRoundup(params, dateOptions)`
followed by `.then(...)` - when the call yields no promise, accessing
`.then` throws a TypeError, the surrounding catch logs it, and
`user.latestRoundupDate` is never assigned; only a resolving promise
would run the callback that sets it to today and saves. -/
def processRoundups (prevDate : Option String) (today : String)
    (enqueueSucceeds : Bool) : TriggerUserOutcome :=
  if prevDate = some today then ⟨prevDate, false⟩
  else if requestReturnsPromise then
    if enqueueSucceeds then ⟨some today, false⟩ else ⟨prevDate, true⟩
  else ⟨prevDate, true⟩

/-- JavaScript string comparison `a < b`: lexicographic on code points. -/
def jsStrLt (a b : String) : Bool := decide (a.data < b.data)

/-- Embeds the `gte` computation of `setupDateOptions`
(src/roundup/trigger.js lines 106-130), for well-formed `YYYY-MM-DD`
inputs (for which `moment(x).format` is the identity and formatted-date
comparison is string comparison; `moment(undefined)` is the current
moment, which formats to today and is not before today):
`moment(options.gte or latestRoundupDate)` is taken when it is a valid
date before today; otherwise `dateOptions.gte` keeps the raw caller value
unless `options.month` is set, in which case the first day of the current
month is used. -/
def setupGte (today firstOfMonth : String) (optGte : Option String)
    (optMonth : Bool) (latest : Option String) : Option String :=
  match optGte.orElse (fun _ => latest) with
  | some g => if jsStrLt g today then some g else if optMonth then some firstOfMonth else optGte
  | none => if optMonth then some firstOfMonth else optGte

/-- Embeds the aggregator query built by `request` (part_003 lines
479-486): the posted `options.gte` is the module-level `YESTERDAY`
constant computed at process start; the date options computed by the
trigger are not consulted (`request` accepts only `personData`). -/
def aggregatorRequestGte (yesterday : String) (_dateOptionsGte : Option String) : String :=
  yesterday

/-! ## The consumer's chain-entry upsert (saveTransaction) -/

/-- Embeds `saveTransaction` (part_003 lines 388-400) over a store of
persisted chain entries, with MongoDB update semantics: every document
matching the query on `hash.value` receives the modifier, and a `$set` of
`signatures` replaces exactly that field. -/
def saveTransaction (store : List ChainEntry) (t : ChainEntry) : List ChainEntry :=
  store.map fun r =>
    if r.hash.value = t.hash.value then ⟨r.hash, r.payload, t.signatures⟩ else r

/-- A concrete co-signature. -/
def sigW : ChainSig := ⟨⟨"ed25519", "addr-kid"⟩, "deadbeef"⟩

/-- A concrete incoming entry carrying a signature, whose hash value
matches `entryW0` but whose payload differs. -/
def entryWsig : ChainEntry :=
  ⟨⟨"sha256", "0"⟩, ⟨0, "addrW", 0, 0, 99, "USD", -10, none, "x", "y"⟩, [sigW]⟩

end Roundup

namespace Roundup

/-- C1: for every message the consumer processes, `deleteMessage` runs only
after the envelope signature verification and the commit
(`checkTransactionPayload`) succeed; and whenever the latest entry's
signature fails to verify against the address public key, the receipt is
not deleted and `Address.latestTransaction` is not changed. -/
theorem c1_delete_only_after_verified_commit
    (verifyEnvelope : Envelope → String → Bool)
    (verifyEntry : ChainEntry → String → Bool) (signerPublicKey : String)
    (lookupAddress : String → Option AddressRecord)
    (env : Envelope) (addr : AddressRecord)
    (hlook : lookupAddress env.payload.address = some addr) :
    (((processMessage verifyEnvelope verifyEntry signerPublicKey lookupAddress
        (some env)).deletedReceipt = true) →
      verifyEnvelope env signerPublicKey = true ∧
      (checkTransactionPayload verifyEntry addr env).ok = true) ∧
    (∀ latest, findLatest (comparisonCount env) env.payload.transactions = some latest →
      verifyEntry latest addr.publicKey = false →
      (processMessage verifyEnvelope verifyEntry signerPublicKey lookupAddress
        (some env)).deletedReceipt = false ∧
      (processMessage verifyEnvelope verifyEntry signerPublicKey lookupAddress
        (some env)).tipUpdate = none) := by
  constructor
  · intro hdel
    by_cases hv : verifyEnvelope env signerPublicKey = true
    · refine ⟨hv, ?_⟩
      by_cases hok : (checkTransactionPayload verifyEntry addr env).ok = true
      · exact hok
      · exfalso
        simp only [processMessage, hlook, hv, if_true] at hdel
        rw [if_neg hok] at hdel
        exact Bool.false_ne_true hdel
    · exfalso
      simp only [processMessage, hlook] at hdel
      rw [if_neg hv] at hdel
      exact Bool.false_ne_true hdel
  · intro latest hfind hbad
    have hchk : checkTransactionPayload verifyEntry addr env = ⟨false, none⟩ := by
      unfold checkTransactionPayload
      rw [hfind]
      simp [hbad]
    by_cases hv : verifyEnvelope env signerPublicKey = true
    · simp [processMessage, hlook, hv, hchk]
    · simp [processMessage, hlook, hv]

/-- Witness for C1 at a concrete message whose latest-entry signature fails:
the receipt is not deleted and the tip is unchanged. -/
theorem c1_witness :
    (processMessage (fun _ _ => true) (fun _ _ => false) "signerKey"
      (fun _ => some addressW) (some envelopeW)).deletedReceipt = false ∧
    (processMessage (fun _ _ => true) (fun _ _ => false) "signerKey"
      (fun _ => some addressW) (some envelopeW)).tipUpdate = none := by
  have h := c1_delete_only_after_verified_commit (fun _ _ => true)
    (fun _ _ => false) "signerKey" (fun _ => some addressW) envelopeW addressW rfl
  exact h.2 entryW1 (by decide) rfl

/-- The fold behind `findLatest` leaves the accumulator unchanged when no
entry carries the comparison count. -/
theorem foldlLatest_no_match (c : Int) (txs : List ChainEntry)
    (acc : Option ChainEntry) (h : ∀ t ∈ txs, t.payload.count ≠ c) :
    txs.foldl (fun acc t => if t.payload.count = c then some t else acc) acc = acc := by
  induction txs generalizing acc with
  | nil => rfl
  | cons t ts ih =>
    have ht : t.payload.count ≠ c := h t (List.mem_cons_self t ts)
    simp only [List.foldl_cons, if_neg ht]
    exact ih acc fun u hu => h u (List.mem_cons_of_mem t hu)

/-- With pairwise-distinct counts, the fold behind `findLatest` returns the
unique entry carrying the comparison count, whatever the accumulator. -/
theorem foldlLatest_unique (c : Int) (txs : List ChainEntry)
    (hd : (txs.map fun t => t.payload.count).Nodup) (l : ChainEntry)
    (hmem : l ∈ txs) (hc : l.payload.count = c) (acc : Option ChainEntry) :
    txs.foldl (fun acc t => if t.payload.count = c then some t else acc) acc = some l := by
  induction txs generalizing acc with
  | nil => exact absurd hmem (List.not_mem_nil l)
  | cons t ts ih =>
    rw [List.map_cons, List.nodup_cons] at hd
    rcases List.mem_cons.mp hmem with rfl | hmem'
    · simp only [List.foldl_cons, if_pos hc]
      refine foldlLatest_no_match c ts (some l) fun u hu hcount => ?_
      exact hd.1 (hc ▸ hcount ▸ List.mem_map_of_mem (fun t => t.payload.count) hu)
    · simp only [List.foldl_cons]
      exact ih hd.2 hmem' _

/-- C4: when the consumer commits an envelope whose entries carry pairwise
distinct counts, the entry it treats as latest is exactly the one whose
`payload.count` equals `previous.payload.count + transactions.length`, and
on successful verification of that entry the tip is set to its
`hash.value`. -/
theorem c4_latest_entry_selection
    (verifyEnvelope : Envelope → String → Bool)
    (verifyEntry : ChainEntry → String → Bool) (signerPublicKey : String)
    (lookupAddress : String → Option AddressRecord)
    (env : Envelope) (addr : AddressRecord) (latest : ChainEntry)
    (hlook : lookupAddress env.payload.address = some addr)
    (houter : verifyEnvelope env signerPublicKey = true)
    (hd : (env.payload.transactions.map fun t => t.payload.count).Nodup)
    (hmem : latest ∈ env.payload.transactions)
    (hc : latest.payload.count = comparisonCount env)
    (hver : verifyEntry latest addr.publicKey = true) :
    findLatest (comparisonCount env) env.payload.transactions = some latest ∧
    (processMessage verifyEnvelope verifyEntry signerPublicKey lookupAddress
      (some env)).tipUpdate = some latest.hash.value := by
  have hfind : findLatest (comparisonCount env) env.payload.transactions = some latest :=
    foldlLatest_unique (comparisonCount env) env.payload.transactions hd latest hmem hc none
  refine ⟨hfind, ?_⟩
  have hchk : checkTransactionPayload verifyEntry addr env =
      ⟨true, some latest.hash.value⟩ := by
    unfold checkTransactionPayload
    rw [hfind]
    simp [hver]
  simp [processMessage, hlook, houter, hchk]

/-- Witness for C4 at a concrete committed envelope: the unique entry with
count `previous.count + 1` is selected and the tip becomes its hash. -/
theorem c4_witness :
    findLatest (comparisonCount envelopeW) envelopeW.payload.transactions = some entryW1 ∧
    (processMessage (fun _ _ => true) (fun _ _ => true) "signerKey"
      (fun _ => some addressW) (some envelopeW)).tipUpdate = some "1" :=
  c4_latest_entry_selection (fun _ _ => true) (fun _ _ => true) "signerKey"
    (fun _ => some addressW) envelopeW addressW entryW1 rfl rfl (by decide)
    (by decide) (by decide) rfl

/-- On a batch of eligible inputs the builder's fold succeeds, preserves
the batch length, and produces a linked segment. -/
theorem buildEntries_ok (hashFn : ChainPayload → String) :
    ∀ (txs : List (Option PlaidTx)) (prev : ChainEntry),
      (∀ t ∈ txs, validTx t) →
      ∃ entries, buildEntries hashFn prev txs = .ok entries ∧
        entries.length = txs.length ∧ linked prev entries := by
  intro txs
  induction txs with
  | nil => exact fun prev _ => ⟨[], rfl, rfl, trivial⟩
  | cons t ts ih =>
    intro prev hv
    obtain ⟨tx, a, r, rfl, ha, hapos, hr, hrnn⟩ := hv t (List.mem_cons_self t ts)
    have hct : createTransaction hashFn (some tx) prev =
        .ok (nextEntry hashFn prev tx a r) := by
      simp only [createTransaction, ha, hr]
      rw [if_neg (not_le.mpr hapos), if_neg (not_lt.mpr hrnn)]
    obtain ⟨rest, hrest, hlen, hlink⟩ := ih (nextEntry hashFn prev tx a r)
      (fun u hu => hv u (List.mem_cons_of_mem _ hu))
    refine ⟨nextEntry hashFn prev tx a r :: rest, ?_, ?_, ?_⟩
    · simp only [buildEntries, hct, hrest]
    · simp [hlen]
    · exact ⟨rfl, rfl, rfl, hlink⟩

/-- In a linked segment the counts increase by one, starting from
`prev.payload.count + 1`. -/
theorem linked_count (l : List ChainEntry) :
    ∀ (prev : ChainEntry), linked prev l → ∀ i (hi : i < l.length),
      (l.get ⟨i, hi⟩).payload.count = prev.payload.count + (i : Int) + 1 := by
  induction l with
  | nil => intro prev _ i hi; simp at hi
  | cons e rest ih =>
    intro prev hl i hi
    obtain ⟨hc, -, -, hrest⟩ := hl
    cases i with
    | zero => simpa using hc
    | succ j =>
      have hj : j < rest.length := by simpa using hi
      have hstep := ih e hrest j hj
      have hget : ((e :: rest).get ⟨j + 1, hi⟩) = rest.get ⟨j, hj⟩ := rfl
      rw [hget, hstep, hc]
      push_cast
      ring

/-- In a linked segment every entry after the first points its `previous`
at the prior entry's hash value. -/
theorem linked_previous_succ (l : List ChainEntry) :
    ∀ (prev : ChainEntry), linked prev l →
      ∀ i (h1 : i < l.length) (h2 : i + 1 < l.length),
        (l.get ⟨i + 1, h2⟩).payload.previous = some ((l.get ⟨i, h1⟩).hash.value) := by
  induction l with
  | nil => intro prev _ i h1 _; simp at h1
  | cons e rest ih =>
    intro prev hl i h1 h2
    obtain ⟨-, -, -, hrest⟩ := hl
    cases i with
    | zero =>
      cases rest with
      | nil => simp at h2
      | cons f rest' =>
        obtain ⟨-, hp, -, -⟩ := hrest
        simpa using hp
    | succ j =>
      have hj1 : j < rest.length := by simpa using h1
      have hj2 : j + 1 < rest.length := by simpa using h2
      simpa using ih e hrest j hj1 hj2

/-- In a linked segment every entry after the first has the prior entry's
balance minus its own roundup. -/
theorem linked_balance_succ (l : List ChainEntry) :
    ∀ (prev : ChainEntry), linked prev l →
      ∀ i (h1 : i < l.length) (h2 : i + 1 < l.length),
        (l.get ⟨i + 1, h2⟩).payload.balance =
          (l.get ⟨i, h1⟩).payload.balance - (l.get ⟨i + 1, h2⟩).payload.roundup := by
  induction l with
  | nil => intro prev _ i h1 _; simp at h1
  | cons e rest ih =>
    intro prev hl i h1 h2
    obtain ⟨-, -, -, hrest⟩ := hl
    cases i with
    | zero =>
      cases rest with
      | nil => simp at h2
      | cons f rest' =>
        obtain ⟨-, -, hb, -⟩ := hrest
        simpa using hb
    | succ j =>
      have hj1 : j < rest.length := by simpa using h1
      have hj2 : j + 1 < rest.length := by simpa using h2
      simpa using ih e hrest j hj1 hj2

/-- In a linked segment the final balance is the starting balance minus
the sum of all roundups. -/
theorem linked_balance_last (l : List ChainEntry) :
    ∀ (prev : ChainEntry), linked prev l → ∀ (hne : l ≠ []),
      (l.getLast hne).payload.balance =
        prev.payload.balance - (l.map fun e => e.payload.roundup).sum := by
  induction l with
  | nil => intro prev _ hne; exact absurd rfl hne
  | cons e rest ih =>
    intro prev hl hne
    obtain ⟨-, -, hb, hrest⟩ := hl
    cases rest with
    | nil => simpa using hb
    | cons f rest' =>
      have hlast := ih e hrest (List.cons_ne_nil f rest')
      rw [List.getLast_cons (List.cons_ne_nil f rest'), hlast, hb]
      simp only [List.map_cons, List.sum_cons]
      ring

/-- C2: for every valid previous tip and batch of eligible inputs, the
builder returns exactly one entry per input, with counts increasing by one
from `previous.payload.count + 1`, the first entry's `payload.previous`
equal to `previous.hash.value`, and each later entry's `payload.previous`
equal to the immediately preceding entry's `hash.value`. -/
theorem c2_chain_builder_linkage (hashFn : ChainPayload → String)
    (address : String) (previous : ChainEntry) (txs : List (Option PlaidTx))
    (haddr : previous.payload.address = address)
    (hhash : hashFn previous.payload = previous.hash.value)
    (hvalid : ∀ t ∈ txs, validTx t) :
    ∃ entries, createChain hashFn address previous txs = .ok entries ∧
      entries.length = txs.length ∧
      (∀ i (hi : i < entries.length),
        (entries.get ⟨i, hi⟩).payload.count = previous.payload.count + (i : Int) + 1) ∧
      (∀ hne : entries ≠ [], (entries.head hne).payload.previous = some previous.hash.value) ∧
      (∀ i (h1 : i < entries.length) (h2 : i + 1 < entries.length),
        (entries.get ⟨i + 1, h2⟩).payload.previous =
          some ((entries.get ⟨i, h1⟩).hash.value)) := by
  obtain ⟨entries, hbuild, hlen, hlink⟩ := buildEntries_ok hashFn txs previous hvalid
  have hcc : createChain hashFn address previous txs = .ok entries := by
    unfold createChain
    rw [if_neg (by simp [haddr]), if_neg (by simp [hhash])]
    exact hbuild
  refine ⟨entries, hcc, hlen, linked_count entries previous hlink, ?_,
    linked_previous_succ entries previous hlink⟩
  intro hne
  cases entries with
  | nil => exact absurd rfl hne
  | cons e rest => exact hlink.2.1

/-- Witness for C2 on a concrete two-transaction batch. -/
theorem c2_witness :
    ∃ entries, createChain hashFnW "addrW" entryW0 [some txWA, some txWB] =
        Except.ok entries ∧
      entries.length = ([some txWA, some txWB] : List (Option PlaidTx)).length ∧
      (∀ i (hi : i < entries.length),
        (entries.get ⟨i, hi⟩).payload.count = entryW0.payload.count + (i : Int) + 1) ∧
      (∀ hne : entries ≠ [], (entries.head hne).payload.previous = some entryW0.hash.value) ∧
      (∀ i (h1 : i < entries.length) (h2 : i + 1 < entries.length),
        (entries.get ⟨i + 1, h2⟩).payload.previous =
          some ((entries.get ⟨i, h1⟩).hash.value)) :=
  c2_chain_builder_linkage hashFnW "addrW" entryW0 [some txWA, some txWB]
    rfl (by decide)
    (by
      intro t ht
      rcases List.mem_cons.mp ht with rfl | ht'
      · exact ⟨txWA, 1, 1/2, rfl, rfl, by norm_num, rfl, by norm_num⟩
      · rcases List.mem_cons.mp ht' with rfl | h0
        · exact ⟨txWB, 2, 1/4, rfl, rfl, by norm_num, rfl, by norm_num⟩
        · exact absurd h0 (List.not_mem_nil t))

/-- C6: for every valid previous tip and non-empty batch of eligible
inputs, each built entry's balance is the prior balance minus its roundup,
and the final entry's balance is `previous.payload.balance` minus the sum
of all roundups. -/
theorem c6_balance_sum (hashFn : ChainPayload → String)
    (address : String) (previous : ChainEntry) (txs : List (Option PlaidTx))
    (haddr : previous.payload.address = address)
    (hhash : hashFn previous.payload = previous.hash.value)
    (hvalid : ∀ t ∈ txs, validTx t) (hne : txs ≠ []) :
    ∃ entries, createChain hashFn address previous txs = .ok entries ∧
      (∃ hne2 : entries ≠ [],
        (entries.head hne2).payload.balance =
          previous.payload.balance - (entries.head hne2).payload.roundup ∧
        (entries.getLast hne2).payload.balance =
          previous.payload.balance - (entries.map fun e => e.payload.roundup).sum) ∧
      (∀ i (h1 : i < entries.length) (h2 : i + 1 < entries.length),
        (entries.get ⟨i + 1, h2⟩).payload.balance =
          (entries.get ⟨i, h1⟩).payload.balance -
            (entries.get ⟨i + 1, h2⟩).payload.roundup) := by
  obtain ⟨entries, hbuild, hlen, hlink⟩ := buildEntries_ok hashFn txs previous hvalid
  have hcc : createChain hashFn address previous txs = .ok entries := by
    unfold createChain
    rw [if_neg (by simp [haddr]), if_neg (by simp [hhash])]
    exact hbuild
  have hne2 : entries ≠ [] := by
    intro h
    rw [h] at hlen
    exact hne (List.eq_nil_of_length_eq_zero (by simpa using hlen.symm))
  refine ⟨entries, hcc, ⟨hne2, ?_, linked_balance_last entries previous hlink hne2⟩,
    linked_balance_succ entries previous hlink⟩
  cases entries with
  | nil => exact absurd rfl hne2
  | cons e rest => exact hlink.2.2.1

/-- Witness for C6 on a concrete two-transaction batch. -/
theorem c6_witness :
    ∃ entries, createChain hashFnW "addrW" entryW0 [some txWA, some txWB] =
        Except.ok entries ∧
      (∃ hne2 : entries ≠ [],
        (entries.head hne2).payload.balance =
          entryW0.payload.balance - (entries.head hne2).payload.roundup ∧
        (entries.getLast hne2).payload.balance =
          entryW0.payload.balance - (entries.map fun e => e.payload.roundup).sum) ∧
      (∀ i (h1 : i < entries.length) (h2 : i + 1 < entries.length),
        (entries.get ⟨i + 1, h2⟩).payload.balance =
          (entries.get ⟨i, h1⟩).payload.balance -
            (entries.get ⟨i + 1, h2⟩).payload.roundup) :=
  c6_balance_sum hashFnW "addrW" entryW0 [some txWA, some txWB]
    rfl (by decide)
    (by
      intro t ht
      rcases List.mem_cons.mp ht with rfl | ht'
      · exact ⟨txWA, 1, 1/2, rfl, rfl, by norm_num, rfl, by norm_num⟩
      · rcases List.mem_cons.mp ht' with rfl | h0
        · exact ⟨txWB, 2, 1/4, rfl, rfl, by norm_num, rfl, by norm_num⟩
        · exact absurd h0 (List.not_mem_nil t))
    (by simp)

/-- C5 counterexample: started with `get({firstRun: true})`, three
consecutive empty receives do not terminate the consumer (the counter only
reaches 3 at the moment the script runs out), contradicting the claim that
exactly three consecutive empty polls end the run; no run record is
written. -/
theorem c5_counterexample :
    consumerRun [.empty, .empty, .empty] = .pollingExhausted 3 ∧
    (∀ n r nf, consumerRun [.empty, .empty, .empty] ≠ .terminated n r nf) := by
  refine ⟨by decide, ?_⟩
  intro n r nf h
  rw [show consumerRun [.empty, .empty, .empty] = .pollingExhausted 3 from by decide] at h
  exact ConsumerOutcome.noConfusion h

/-- C5 amended: the consumer terminates at the first empty receive where
the empty counter exceeds 2 - four consecutive empty receives from the
start of a run, and three consecutive empty receives after a processed
message (the counter is reset to 0 on every processed message, in both
the commit and the error path, and then incremented by the follow-up
`get()`); on termination it writes the run record for process `roundup`
and notifies the operator, and it terminates no earlier. -/
theorem c5_amended_termination (rest : List PollResult) :
    consumerRun (.empty :: .empty :: .empty :: .empty :: rest) =
      .terminated 4 ⟨"roundup"⟩ true ∧
    consumerRun [.empty, .empty, .empty] = .pollingExhausted 3 ∧
    consumerRun (.messages true :: .empty :: .empty :: .empty :: rest) =
      .terminated 4 ⟨"roundup"⟩ true ∧
    consumerRun (.messages false :: .empty :: .empty :: .empty :: rest) =
      .terminated 4 ⟨"roundup"⟩ true ∧
    consumerRun [.messages true, .empty, .empty] = .pollingExhausted 3 := by
  refine ⟨?_, by decide, ?_, ?_, by decide⟩ <;>
    simp [consumerRun, consumerLoop]

/-- C3 (code bug): the producer variant at part_003 lines 716-718 hashes
exactly the canonical JSON of the envelope payload, but the variant at
lines 989-992 hashes `JSON.stringify` of the same payload, which differs
from the canonical JSON whenever a chain entry's payload keeps the
builder's insertion key order (`count` before `address`, and so on). -/
theorem c3_hash_input_divergence :
    signHashInputStable envPayloadJsonW = canonicalJson envPayloadJsonW ∧
    signHashInputPlain envPayloadJsonW ≠ canonicalJson envPayloadJsonW := by
  refine ⟨rfl, ?_⟩
  have h : sortJson envPayloadJsonW = envPayloadSortedJsonW := by
    simp +decide [envPayloadJsonW, envelopePayloadJson, entryJsonW, entryPayloadJsonW,
      prevPayloadJsonW, envPayloadSortedJsonW, entryPayloadSortedJsonW,
      prevPayloadSortedJsonW, sortJson, sortJsonList, sortJsonFields,
      insertionSortFields, insertField]
  show renderJs envPayloadJsonW ≠ renderJs (sortJson envPayloadJsonW)
  rw [h]
  decide

/-- C7 (code bug): a batch whose filtered list of eligible transactions is
empty still reaches `sendToQueue` - the empty JavaScript array is truthy,
so `processData` builds an empty chain and enqueues an envelope with zero
transactions instead of skipping the enqueue. -/
theorem c7_empty_filter_still_enqueues :
    ([txPendingW].filter transactionFilter) = ([] : List RawPlaidTx) ∧
    processData hashFnW entryW0 "addrW" (some [txPendingW]) =
      some ⟨true, 0⟩ := by
  constructor
  · decide
  · decide

/-- C8 (code bug): a dispatched user's `latestRoundupDate` is never
updated - not even when the worker's enqueue succeeds - because
`request` returns `undefined` and the trigger's `.then` call on it
throws, landing in the catch branch; the claim's only-if direction (no
update on worker exception) holds vacuously. -/
theorem c8_latest_roundup_date_never_updated :
    (∀ (prevDate : Option String) (today : String) (enqueueSucceeds : Bool),
      (processRoundups prevDate today enqueueSucceeds).latestRoundupDate = prevDate) ∧
    processRoundups (some "2026-10-01") "2026-10-12" true =
      ⟨some "2026-10-01", true⟩ := by
  constructor
  · intro prevDate today enqueueSucceeds
    unfold processRoundups
    by_cases h : prevDate = some today
    · simp [h, requestReturnsPromise]
    · simp [h, requestReturnsPromise]
  · decide

/-- C9 (code bug): on 2026-10-12 with no caller-supplied `gte` and a
`latestRoundupDate` of 2026-10-05, the trigger computes the claimed bound
2026-10-05, but the aggregator query sent by `request` carries the fixed
process-start `YESTERDAY` constant (2026-10-10) instead, ignoring the
computed date options. -/
theorem c9_aggregator_gte_ignores_date_options :
    setupGte "2026-10-12" "2026-10-01" none false (some "2026-10-05") =
      some "2026-10-05" ∧
    aggregatorRequestGte "2026-10-10"
      (setupGte "2026-10-12" "2026-10-01" none false (some "2026-10-05")) =
      "2026-10-10" ∧
    ("2026-10-10" : String) ≠ "2026-10-05" := by
  refine ⟨by decide, rfl, by decide⟩

/-- C10: each chain-entry write of the consumer's commit is keyed by
`hash.value` and only sets the `signatures` field: every already-persisted
entry keeps its `hash` and `payload` (in particular `payload.balance` and
`payload.previous`), and its `signatures` are replaced exactly when its
`hash.value` matches the incoming entry's. -/
theorem c10_commit_frame (store : List ChainEntry) (t : ChainEntry) :
    (saveTransaction store t).length = store.length ∧
    ∀ i (h1 : i < (saveTransaction store t).length) (h2 : i < store.length),
      ((saveTransaction store t).get ⟨i, h1⟩).hash = (store.get ⟨i, h2⟩).hash ∧
      ((saveTransaction store t).get ⟨i, h1⟩).payload = (store.get ⟨i, h2⟩).payload ∧
      (((store.get ⟨i, h2⟩).hash.value = t.hash.value ∧
          ((saveTransaction store t).get ⟨i, h1⟩).signatures = t.signatures) ∨
        ((store.get ⟨i, h2⟩).hash.value ≠ t.hash.value ∧
          ((saveTransaction store t).get ⟨i, h1⟩).signatures =
            (store.get ⟨i, h2⟩).signatures)) := by
  refine ⟨by simp [saveTransaction], ?_⟩
  intro i h1 h2
  simp only [saveTransaction, List.get_eq_getElem, List.getElem_map]
  by_cases hc : store[i].hash.value = t.hash.value
  · simp [hc]
  · simp [hc]

/-- Witness for C10: committing an incoming entry whose hash value matches
a stored entry but whose payload differs leaves the stored payload
untouched. -/
theorem c10_witness :
    ((saveTransaction [entryW0] entryWsig).get ⟨0, by decide⟩).payload =
      (([entryW0] : List ChainEntry).get ⟨0, by decide⟩).payload :=
  (((c10_commit_frame [entryW0] entryWsig).2 0 (by decide) (by decide)).2).1

end Roundup
